import Mathlib

/-!
Verification of the usage-forwarder pipeline (`src/main.py`).

The program is a linear pipeline: idempotency check against the ingestion
target, authentication against the metering provider, meter enumeration,
per-meter reading fetch, and forwarding of the collected payload, with an
optional multi-day backfill loop.  We embed it shallowly: every HTTP
response the outside world can give is a field of a `World` value, each
Python function becomes a Lean function in a trace-emitting error monad
`M`, and exceptions become `Except Err` values.  Calendar days are modelled
as integers (days since an arbitrary epoch); `strftime` of a day is the day
itself, which preserves exactly the ordering and identity facts the
specification talks about.
-/

/-- JSON values as delivered by the HTTP APIs.  Numbers are modelled as
integers; only truthiness of numbers matters to the program. -/
inductive Json where
  | null : Json
  | bool (b : Bool) : Json
  | num (n : Int) : Json
  | str (s : String) : Json
  | arr (elems : List Json) : Json
  | obj (fields : List (String × Json)) : Json

mutual

/-- Decidable equality on JSON values (the derive handler does not support
this nested inductive, so it is spelled out). -/
def Json.decEq : (a b : Json) → Decidable (a = b)
  | .null, .null => isTrue rfl
  | .null, .bool _ => isFalse (fun h => Json.noConfusion h)
  | .null, .num _ => isFalse (fun h => Json.noConfusion h)
  | .null, .str _ => isFalse (fun h => Json.noConfusion h)
  | .null, .arr _ => isFalse (fun h => Json.noConfusion h)
  | .null, .obj _ => isFalse (fun h => Json.noConfusion h)
  | .bool _, .null => isFalse (fun h => Json.noConfusion h)
  | .bool a, .bool b =>
      if h : a = b then isTrue (by rw [h]) else isFalse (fun hh => h (by cases hh; rfl))
  | .bool _, .num _ => isFalse (fun h => Json.noConfusion h)
  | .bool _, .str _ => isFalse (fun h => Json.noConfusion h)
  | .bool _, .arr _ => isFalse (fun h => Json.noConfusion h)
  | .bool _, .obj _ => isFalse (fun h => Json.noConfusion h)
  | .num _, .null => isFalse (fun h => Json.noConfusion h)
  | .num _, .bool _ => isFalse (fun h => Json.noConfusion h)
  | .num a, .num b =>
      if h : a = b then isTrue (by rw [h]) else isFalse (fun hh => h (by cases hh; rfl))
  | .num _, .str _ => isFalse (fun h => Json.noConfusion h)
  | .num _, .arr _ => isFalse (fun h => Json.noConfusion h)
  | .num _, .obj _ => isFalse (fun h => Json.noConfusion h)
  | .str _, .null => isFalse (fun h => Json.noConfusion h)
  | .str _, .bool _ => isFalse (fun h => Json.noConfusion h)
  | .str _, .num _ => isFalse (fun h => Json.noConfusion h)
  | .str a, .str b =>
      if h : a = b then isTrue (by rw [h]) else isFalse (fun hh => h (by cases hh; rfl))
  | .str _, .arr _ => isFalse (fun h => Json.noConfusion h)
  | .str _, .obj _ => isFalse (fun h => Json.noConfusion h)
  | .arr _, .null => isFalse (fun h => Json.noConfusion h)
  | .arr _, .bool _ => isFalse (fun h => Json.noConfusion h)
  | .arr _, .num _ => isFalse (fun h => Json.noConfusion h)
  | .arr _, .str _ => isFalse (fun h => Json.noConfusion h)
  | .arr as, .arr bs =>
      match Json.decEqList as bs with
      | isTrue h => isTrue (by rw [h])
      | isFalse h => isFalse (fun hh => h (by cases hh; rfl))
  | .arr _, .obj _ => isFalse (fun h => Json.noConfusion h)
  | .obj _, .null => isFalse (fun h => Json.noConfusion h)
  | .obj _, .bool _ => isFalse (fun h => Json.noConfusion h)
  | .obj _, .num _ => isFalse (fun h => Json.noConfusion h)
  | .obj _, .str _ => isFalse (fun h => Json.noConfusion h)
  | .obj _, .arr _ => isFalse (fun h => Json.noConfusion h)
  | .obj fs, .obj gs =>
      match Json.decEqFields fs gs with
      | isTrue h => isTrue (by rw [h])
      | isFalse h => isFalse (fun hh => h (by cases hh; rfl))

/-- Decidable equality on lists of JSON values. -/
def Json.decEqList : (as bs : List Json) → Decidable (as = bs)
  | [], [] => isTrue rfl
  | [], _ :: _ => isFalse (fun h => List.noConfusion h)
  | _ :: _, [] => isFalse (fun h => List.noConfusion h)
  | a :: as, b :: bs =>
      match Json.decEq a b with
      | isFalse h => isFalse (fun hh => h (by cases hh; rfl))
      | isTrue h1 =>
        match Json.decEqList as bs with
        | isTrue h2 => isTrue (by rw [h1, h2])
        | isFalse h2 => isFalse (fun hh => h2 (by cases hh; rfl))

/-- Decidable equality on JSON object field lists. -/
def Json.decEqFields : (fs gs : List (String × Json)) → Decidable (fs = gs)
  | [], [] => isTrue rfl
  | [], _ :: _ => isFalse (fun h => List.noConfusion h)
  | _ :: _, [] => isFalse (fun h => List.noConfusion h)
  | (s, a) :: fs, (t, b) :: gs =>
      if hs : s = t then
        match Json.decEq a b with
        | isFalse h => isFalse (fun hh => h (by cases hh; rfl))
        | isTrue h1 =>
          match Json.decEqFields fs gs with
          | isTrue h2 => isTrue (by rw [hs, h1, h2])
          | isFalse h2 => isFalse (fun hh => h2 (by cases hh; rfl))
      else isFalse (fun hh => hs (by cases hh; rfl))

end

instance : DecidableEq Json := Json.decEq

/-- Python exceptions raised by the program. -/
inductive Err where
  | httpError (status : Nat) : Err
  | parseError : Err
  | valueError (msg : String) : Err
  | typeError : Err
  | keyError (k : String) : Err
  | attrError : Err
deriving DecidableEq

/-- Observable events of a run: one constructor per outgoing HTTP call,
plus the top-level error log line. -/
inductive Event where
  | authCall : Event
  | metersCall (token : Json) : Event
  | dataCall (token : Json) (meterId : Json) (date : Int) : Event
  | forwardCall (payload : Json) : Event
  | subjectsCall : Event
  | measurementsCall (subjectIds : List Json) : Event
  | errorLog (e : Err) : Event
deriving DecidableEq

/-- An HTTP response: a status code and, when the body is valid JSON, its
parse; `none` stands for an unparseable body. -/
structure HResp where
  status : Nat
  body : Option Json
deriving DecidableEq

/-- The outside world: the response each endpoint gives.  Responses of the
per-meter data endpoint may depend on the date and meter id of the request,
and the measurement-search response on the subject-id list sent. -/
structure World where
  today : Int
  subjectsResp : HResp
  measurementsResp : List Json → HResp
  tokenResp : HResp
  metersResp : HResp
  dataResp : Int → Json → HResp
  forwardResp : Json → HResp

/-- The program monad: a result (or uncaught exception) together with the
trace of events emitted. -/
def M (α : Type) : Type := Except Err α × List Event

def pureM {α : Type} (a : α) : M α := (Except.ok a, [])

def bindM {α β : Type} (m : M α) (f : α → M β) : M β :=
  match m with
  | (Except.error e, tr) => (Except.error e, tr)
  | (Except.ok a, tr) => ((f a).1, tr ++ (f a).2)

instance : Monad M where
  pure := pureM
  bind := bindM

/-- Raise `e`, like a Python `raise`. -/
def throwM {α : Type} (e : Err) : M α := (Except.error e, [])

/-- Record one outgoing HTTP call (or log line). -/
def emit (e : Event) : M Unit := (Except.ok (), [e])

/-- Lift a pure fallible computation into the monad. -/
def liftE {α : Type} : Except Err α → M α
  | Except.ok a => (Except.ok a, [])
  | Except.error e => (Except.error e, [])

/-- `response.raise_for_status()`: `requests` raises for 4xx/5xx codes. -/
def raiseForStatus (r : HResp) : M Unit :=
  if 400 ≤ r.status ∧ r.status < 600 then throwM (Err.httpError r.status) else pureM ()

/-- `response.json()` / `json.loads(response.text)`: the parsed body, or a
parse error when the body is not valid JSON. -/
def respJson (r : HResp) : M Json :=
  match r.body with
  | some j => pureM j
  | none => throwM Err.parseError

/-! ## Python value semantics used by the program -/

/-- Python truthiness of a JSON value (`bool(x)`, `if not x`). -/
def pyTruthy : Json → Bool
  | Json.null => false
  | Json.bool b => b
  | Json.num n => n ≠ 0
  | Json.str s => s ≠ ""
  | Json.arr l => !l.isEmpty
  | Json.obj l => !l.isEmpty

/-- Python `d.get(k, dflt)`: only dict values have a `get` method (anything
else raises `AttributeError`); a missing key yields the default. -/
def dictGet (j : Json) (k : String) (dflt : Json) : Except Err Json :=
  match j with
  | Json.obj fields => Except.ok ((fields.lookup k).getD dflt)
  | _ => Except.error Err.attrError

/-- Python iteration over a value: lists yield their elements, strings their
one-character substrings, dicts their keys; other values are not iterable. -/
def pyIter : Json → Except Err (List Json)
  | Json.arr l => Except.ok l
  | Json.str s => Except.ok (s.toList.map (fun c => Json.str (String.mk [c])))
  | Json.obj fields => Except.ok (fields.map (fun p => Json.str p.1))
  | _ => Except.error Err.typeError

/-- Whether `needle` occurs as a contiguous run inside `hay`. -/
def containsSub (needle hay : List Char) : Bool :=
  needle.isPrefixOf hay ||
    match hay with
    | [] => false
    | _ :: t => containsSub needle t

/-- Python `k in v`: key membership for dicts, substring for strings,
element membership for lists; other values raise `TypeError`. -/
def pyInKey (k : String) : Json → Except Err Bool
  | Json.obj fields => Except.ok (fields.any (fun p => p.1 == k))
  | Json.str s => Except.ok (containsSub k.toList s.toList)
  | Json.arr l => Except.ok (decide (Json.str k ∈ l))
  | _ => Except.error Err.typeError

/-- Python `v[k]` with a string key: defined for dicts only (`KeyError`
when the key is absent); lists and strings reject string indices. -/
def pyIndexKey (k : String) : Json → Except Err Json
  | Json.obj fields =>
      match fields.lookup k with
      | some v => Except.ok v
      | none => Except.error (Err.keyError k)
  | _ => Except.error Err.typeError

/-! ## Small helpers from the source -/

/-- Order-preserving deduplication with an accumulator of already-seen
values (the `seen` set / `unique_meter_ids` loop of `fetch_power_usage`). -/
def dedupAux {α : Type} [DecidableEq α] (seen : List α) : List α → List α
  | [] => []
  | x :: xs => if x ∈ seen then dedupAux seen xs else x :: dedupAux (x :: seen) xs

/-- First-occurrence-preserving deduplication, as the source performs it. -/
def dedupFirst {α : Type} [DecidableEq α] (l : List α) : List α := dedupAux [] l

/-- Index of the first occurrence of a value in a list (length when absent);
used to state order-of-first-occurrence properties. -/
def firstIdx {α : Type} [DecidableEq α] (a : α) : List α → Nat
  | [] => 0
  | b :: l => if a = b then 0 else firstIdx a l + 1

/-- The identifier of one meter record: present only when the record is an
object carrying an "id" key (`isinstance(m, dict) and "id" in m`). -/
def meterIdOf : Json → Option Json
  | Json.obj fields => fields.lookup "id"
  | _ => none

/-- The shape check and id extraction of the meter-list response: the value
must be an object whose "meters" key holds a list; records without an
identifier are dropped. -/
def extractMeterIds : Json → Option (List Json)
  | Json.obj fields =>
      match fields.lookup "meters" with
      | some (Json.arr ms) => some (ms.filterMap meterIdOf)
      | _ => none
  | _ => none

/-- The subject-id extraction of `check_run_yesterday`:
`[s["id"] for s in subjects if "id" in s]`. -/
def extractSubjectIds : List Json → Except Err (List Json)
  | [] => Except.ok []
  | s :: rest => do
      let b ← pyInKey "id" s
      if b then do
        let v ← pyIndexKey "id" s
        let vs ← extractSubjectIds rest
        pure (v :: vs)
      else extractSubjectIds rest

/-! ## Event classifiers -/

def Event.isAuthCall : Event → Bool
  | Event.authCall => true
  | _ => false

def Event.isMetersCall : Event → Bool
  | Event.metersCall _ => true
  | _ => false

def Event.isDataCall : Event → Bool
  | Event.dataCall _ _ _ => true
  | _ => false

def Event.isForwardCall : Event → Bool
  | Event.forwardCall _ => true
  | _ => false

/-- Events that the idempotency checker can emit. -/
def Event.isCheckEvent : Event → Bool
  | Event.subjectsCall => true
  | Event.measurementsCall _ => true
  | _ => false

/-- The bearer token an event carries, when it is an authenticated call to
the metering provider. -/
def Event.tokenOf : Event → Option Json
  | Event.metersCall t => some t
  | Event.dataCall t _ _ => some t
  | _ => none

/-! ## The program (`src/main.py`) -/

/-- `get_access_token`: POST to the token endpoint, raise for a bad status,
parse the body, take its "token" field, and reject a missing or falsy
token. -/
def get_access_token (w : World) : M Json := do
  emit Event.authCall
  raiseForStatus w.tokenResp
  let tokenData ← respJson w.tokenResp
  let token ← liftE (dictGet tokenData "token" Json.null)
  if pyTruthy token then pure token else throwM (Err.valueError "No token found in response.")

/-- Step 1 of `fetch_power_usage` (the meter enumerator): GET the meter
list, raise for a bad status, parse, enforce the object/"meters"-list
shape, extract the ids and deduplicate them preserving first occurrence. -/
def enumerate_meters (w : World) (token : Json) : M (List Json) := do
  emit (Event.metersCall token)
  raiseForStatus w.metersResp
  let metersData ← respJson w.metersResp
  match extractMeterIds metersData with
  | some raw => pure (dedupFirst raw)
  | none => throwM (Err.valueError "Unexpected meters data format")

/-- Step 2 of `fetch_power_usage` (the reading fetcher): one GET per meter
id, in order; raise on the first bad status or unparseable body, else
append the parsed payload. -/
def fetchMeterData (w : World) (token : Json) (d : Int) : List Json → M (List Json)
  | [] => pure []
  | mid :: rest => do
      emit (Event.dataCall token mid d)
      raiseForStatus (w.dataResp d mid)
      let raw ← respJson (w.dataResp d mid)
      let restData ← fetchMeterData w token d rest
      pure (raw :: restData)

/-- `fetch_power_usage`: default the date to yesterday (UTC), enumerate the
meters, then fetch each meter's readings for the date. -/
def fetch_power_usage (w : World) (token : Json) (dateStr : Option Int) : M (List Json) := do
  let meter_ids ← enumerate_meters w token
  fetchMeterData w token (dateStr.getD (w.today - 1)) meter_ids

/-- `forward_to_blockbax`: POST the collected payload as-is and raise for a
bad status. -/
def forward_to_blockbax (w : World) (data : List Json) : M Unit := do
  emit (Event.forwardCall (Json.arr data))
  raiseForStatus (w.forwardResp (Json.arr data))

/-- `check_run_yesterday`: list subjects, extract their ids, search
measurements up to yesterday's end scoped to those ids, and report whether
the result field is truthy. -/
def check_run_yesterday (w : World) : M Bool := do
  emit Event.subjectsCall
  raiseForStatus w.subjectsResp
  let j ← respJson w.subjectsResp
  let subjects ← liftE (dictGet j "result" (Json.arr []))
  let selems ← liftE (pyIter subjects)
  let subject_ids ← liftE (extractSubjectIds selems)
  emit (Event.measurementsCall subject_ids)
  raiseForStatus (w.measurementsResp subject_ids)
  let j2 ← respJson (w.measurementsResp subject_ids)
  let res ← liftE (dictGet j2 "result" Json.null)
  pure (pyTruthy res)

/-- One fetch/forward cycle of the orchestrator for one target date. -/
def dayCycle (w : World) (token : Json) (dateStr : Option Int) : M Unit := do
  let data ← fetch_power_usage w token dateStr
  forward_to_blockbax w data

/-- Python `range(b, 0, -1)`: b, b-1, ..., 1 (empty when b is not
positive). -/
def rangeDown (b : Int) : List Int := (List.range b.toNat).map (fun i : Nat => b - (i : Int))

/-- The backfill loop body: one fetch/forward cycle per days-ago value. -/
def runBackfill (w : World) (token : Json) : List Int → M Unit
  | [] => pure ()
  | k :: rest => do
      dayCycle w token (some (w.today - k))
      runBackfill w token rest

/-- The body of `main` inside its try block: idempotency gate, then
authentication, then either the backfill loop or the single yesterday
cycle. -/
def mainBody (w : World) (backfillDays : Int) : M Unit := do
  let ran ← check_run_yesterday w
  if ran then pure ()
  else do
    let token ← get_access_token w
    if backfillDays > 0 then runBackfill w token (rangeDown backfillDays)
    else dayCycle w token none

/-- `main`: run the body and catch every exception at the top level,
logging it; the process outcome is always success. -/
def mainProg (w : World) (backfillDays : Int) : Except Err Unit × List Event :=
  match mainBody w backfillDays with
  | (Except.ok _, tr) => (Except.ok (), tr)
  | (Except.error e, tr) => (Except.ok (), tr ++ [Event.errorLog e])

/-! ## Derived predicates and concrete worlds -/

/-- The top-level shape check the code applies to the meter-list response:
a parseable body that is an object whose "meters" key holds a list. -/
def metersShape (b : Option Json) : Bool :=
  match b with
  | some j => (extractMeterIds j).isSome
  | none => false

/-- The per-meter fetch for this date and meter id fails: error status or
unparseable body. -/
def dataFails (w : World) (d : Int) (mid : Json) : Prop :=
  (400 ≤ (w.dataResp d mid).status ∧ (w.dataResp d mid).status < 600) ∨
    (w.dataResp d mid).body = none

instance (w : World) (d : Int) (mid : Json) : Decidable (dataFails w d mid) :=
  inferInstanceAs (Decidable ((400 ≤ (w.dataResp d mid).status ∧
    (w.dataResp d mid).status < 600) ∨ (w.dataResp d mid).body = none))

/-- A 200 response with the given JSON body. -/
def okResp (j : Json) : HResp := ⟨200, some j⟩

/-- A fully successful world: one subject, no prior measurements, token
"T1", meters A, A, B, per-meter data readable, forwarding accepted. -/
def W1 : World where
  today := 100
  subjectsResp := okResp (Json.obj [("result", Json.arr [Json.obj [("id", Json.str "s1")]])])
  measurementsResp := fun _ => okResp (Json.obj [("result", Json.arr [])])
  tokenResp := okResp (Json.obj [("token", Json.str "T1")])
  metersResp := okResp (Json.obj [("meters", Json.arr
    [Json.obj [("id", Json.str "A")], Json.obj [("id", Json.str "A")], Json.obj [("id", Json.str "B")]])])
  dataResp := fun _ mid => okResp (Json.obj [("m", mid)])
  forwardResp := fun _ => okResp Json.null

/-- Like W1 but a prior measurement exists, so the idempotency check is
true. -/
def W2 : World :=
  { W1 with measurementsResp := fun _ => okResp (Json.obj [("result", Json.arr [Json.num 1])]) }

/-- Like W1 but the single meter record carries no "id" field. -/
def WC1 : World :=
  { W1 with metersResp := okResp (Json.obj [("meters", Json.arr [Json.obj [("x", Json.num 0)]])]) }

/-- Like W1 but the meter-list body is not an object at all. -/
def WBad : World :=
  { W1 with metersResp := okResp (Json.num 3) }

/-- Like W1 but the subject-listing endpoint answers 500 with garbage. -/
def WFail : World :=
  { W1 with subjectsResp := ⟨500, none⟩ }

/-- Like W1 but every per-meter data request answers 500 with garbage. -/
def WFF : World :=
  { W1 with dataResp := fun _ _ => ⟨500, none⟩ }

/-- Like W1 but the project has no subjects, while measurements exist. -/
def WES : World :=
  { W1 with
    subjectsResp := okResp (Json.obj [("result", Json.arr [])])
    measurementsResp := fun _ => okResp (Json.obj [("result", Json.arr [Json.num 1])]) }

/-- Like W1 but the meter list mixes well-formed records with junk
entries. -/
def W9 : World :=
  { W1 with metersResp := okResp (Json.obj [("meters", Json.arr
      [Json.obj [("id", Json.str "A")], Json.num 5, Json.obj [("x", Json.num 1)],
       Json.obj [("id", Json.str "A")], Json.obj [("id", Json.str "B")]])]) }

/-! ## Basic lemmas about the monad -/

@[simp] theorem M.bind_def {α β : Type} (m : M α) (f : α → M β) : (m >>= f) = bindM m f := rfl

@[simp] theorem M.pure_def {α : Type} (a : α) : (pure a : M α) = (Except.ok a, []) := rfl

@[simp] theorem bindM_ok {α β : Type} (a : α) (tr : List Event) (f : α → M β) :
    bindM (Except.ok a, tr) f = ((f a).1, tr ++ (f a).2) := rfl

@[simp] theorem bindM_err {α β : Type} (e : Err) (tr : List Event) (f : α → M β) :
    bindM (Except.error e, tr) f = (Except.error e, tr) := rfl

@[simp] theorem emit_def (e : Event) : emit e = (Except.ok (), [e]) := rfl

@[simp] theorem throwM_def {α : Type} (e : Err) : (throwM e : M α) = (Except.error e, []) := rfl

@[simp] theorem pureM_def {α : Type} (a : α) : (pureM a : M α) = (Except.ok a, []) := rfl

@[simp] theorem liftE_ok {α : Type} (a : α) : liftE (Except.ok a) = ((Except.ok a : Except Err α), []) := rfl

@[simp] theorem liftE_err {α : Type} (e : Err) : (liftE (Except.error e) : M α) = (Except.error e, []) := rfl

theorem raiseForStatus_ok {r : HResp} (h : ¬(400 ≤ r.status ∧ r.status < 600)) :
    raiseForStatus r = (Except.ok (), []) := by
  simp [raiseForStatus, h]

theorem raiseForStatus_fail {r : HResp} (h : 400 ≤ r.status ∧ r.status < 600) :
    raiseForStatus r = (Except.error (Err.httpError r.status), []) := by
  simp [raiseForStatus, h]

@[simp] theorem respJson_some (s : Nat) (j : Json) :
    respJson ⟨s, some j⟩ = (Except.ok j, []) := rfl

@[simp] theorem respJson_none (s : Nat) :
    respJson ⟨s, none⟩ = (Except.error Err.parseError, []) := rfl

/-- Decompose a successful bind. -/
theorem bindM_eq_ok {α β : Type} {m : M α} {f : α → M β} {b : β} {tr : List Event}
    (h : bindM m f = (Except.ok b, tr)) :
    ∃ a tra trb, m = (Except.ok a, tra) ∧ f a = (Except.ok b, trb) ∧ tr = tra ++ trb := by
  rcases m with ⟨r, tr0⟩
  cases r with
  | error e =>
      rw [bindM_err] at h
      injection h with h1 h2
      exact Except.noConfusion h1
  | ok a =>
      rw [bindM_ok] at h
      rcases hf : f a with ⟨rb, trb⟩
      rw [hf] at h
      injection h with h1 h2
      exact ⟨a, tr0, trb, rfl, by rw [hf]; exact congrArg (fun r => (r, trb)) h1, h2.symm⟩

/-- Every event of a bind's trace comes from one of its parts. -/
theorem bindM_trace_sub {α β : Type} {m : M α} {f : α → M β} {ev : Event}
    (h : ev ∈ (bindM m f).2) :
    ev ∈ m.2 ∨ ∃ a, m.1 = Except.ok a ∧ ev ∈ (f a).2 := by
  rcases m with ⟨r, tr0⟩
  cases r with
  | error e => exact Or.inl h
  | ok a =>
      have h' : ev ∈ tr0 ++ (f a).2 := h
      rcases List.mem_append.mp h' with hl | hr
      · exact Or.inl hl
      · exact Or.inr ⟨a, rfl, hr⟩

/-! ## Deduplication lemmas -/

/-- Transfer a pairwise relation along an implication that may use
membership. -/
theorem pairwiseOfMem {α : Type} {R S : α → α → Prop} :
    ∀ {l : List α}, (∀ a b, a ∈ l → b ∈ l → R a b → S a b) → List.Pairwise R l → List.Pairwise S l := by
  intro l
  induction l with
  | nil => intro _ _; exact List.Pairwise.nil
  | cons x xs ih =>
      intro himp hp
      rw [List.pairwise_cons] at hp ⊢
      refine ⟨fun b hb => himp x b (List.mem_cons_self x xs) (List.mem_cons_of_mem x hb) (hp.1 b hb), ?_⟩
      exact ih (fun a b ha hb => himp a b (List.mem_cons_of_mem x ha) (List.mem_cons_of_mem x hb)) hp.2

theorem mem_dedupAux {α : Type} [DecidableEq α] (a : α) :
    ∀ (l seen : List α), a ∈ dedupAux seen l ↔ a ∈ l ∧ a ∉ seen := by
  intro l
  induction l with
  | nil => intro seen; simp [dedupAux]
  | cons x xs ih =>
      intro seen
      by_cases hx : x ∈ seen
      · rw [dedupAux, if_pos hx, ih]
        constructor
        · rintro ⟨h1, h2⟩; exact ⟨List.mem_cons_of_mem x h1, h2⟩
        · rintro ⟨h1, h2⟩
          rcases List.mem_cons.mp h1 with h1 | h1
          · exact absurd (h1.symm ▸ hx : a ∈ seen) h2
          · exact ⟨h1, h2⟩
      · rw [dedupAux, if_neg hx]
        constructor
        · intro h
          rcases List.mem_cons.mp h with h | h
          · exact ⟨h ▸ List.mem_cons_self x xs, h ▸ hx⟩
          · rcases (ih (x :: seen)).mp h with ⟨h1, h2⟩
            exact ⟨List.mem_cons_of_mem x h1, fun hs => h2 (List.mem_cons_of_mem x hs)⟩
        · rintro ⟨h1, h2⟩
          rcases List.mem_cons.mp h1 with h1 | h1
          · exact h1 ▸ List.mem_cons_self x _
          · by_cases hax : a = x
            · exact hax ▸ List.mem_cons_self x _
            · exact List.mem_cons_of_mem x ((ih (x :: seen)).mpr
                ⟨h1, fun hs => (List.mem_cons.mp hs).elim hax h2⟩)

theorem nodup_dedupAux {α : Type} [DecidableEq α] :
    ∀ (l seen : List α), (dedupAux seen l).Nodup := by
  intro l
  induction l with
  | nil => intro seen; simp [dedupAux]
  | cons x xs ih =>
      intro seen
      by_cases hx : x ∈ seen
      · rw [dedupAux, if_pos hx]; exact ih seen
      · rw [dedupAux, if_neg hx, List.nodup_cons]
        refine ⟨fun hmem => ?_, ih (x :: seen)⟩
        exact ((mem_dedupAux x xs (x :: seen)).mp hmem).2 (List.mem_cons_self x seen)

theorem firstIdx_cons_self {α : Type} [DecidableEq α] (a : α) (l : List α) :
    firstIdx a (a :: l) = 0 := by simp [firstIdx]

theorem firstIdx_cons_ne {α : Type} [DecidableEq α] {a b : α} (l : List α) (h : a ≠ b) :
    firstIdx a (b :: l) = firstIdx a l + 1 := by simp [firstIdx, h]

/-- The output of the dedup loop lists values in the order of their first
occurrence in the input. -/
theorem pairwise_firstIdx_dedupAux {α : Type} [DecidableEq α] :
    ∀ (l seen : List α), List.Pairwise (fun a b => firstIdx a l < firstIdx b l) (dedupAux seen l) := by
  intro l
  induction l with
  | nil => intro seen; simp [dedupAux]
  | cons x xs ih =>
      intro seen
      by_cases hx : x ∈ seen
      · rw [dedupAux, if_pos hx]
        refine pairwiseOfMem (fun a b ha hb hr => ?_) (ih seen)
        have hane : a ≠ x := fun he =>
          ((mem_dedupAux a xs seen).mp ha).2 (he.symm ▸ hx)
        have hbne : b ≠ x := fun he =>
          ((mem_dedupAux b xs seen).mp hb).2 (he.symm ▸ hx)
        rw [firstIdx_cons_ne xs hane, firstIdx_cons_ne xs hbne]
        exact Nat.succ_lt_succ hr
      · rw [dedupAux, if_neg hx, List.pairwise_cons]
        constructor
        · intro b hb
          have hbne : b ≠ x := fun he =>
            ((mem_dedupAux b xs (x :: seen)).mp hb).2 (he ▸ List.mem_cons_self x seen)
          rw [firstIdx_cons_self, firstIdx_cons_ne xs hbne]
          exact Nat.succ_pos _
        · refine pairwiseOfMem (fun a b ha hb hr => ?_) (ih (x :: seen))
          have hane : a ≠ x := fun he =>
            ((mem_dedupAux a xs (x :: seen)).mp ha).2 (he ▸ List.mem_cons_self x seen)
          have hbne : b ≠ x := fun he =>
            ((mem_dedupAux b xs (x :: seen)).mp hb).2 (he ▸ List.mem_cons_self x seen)
          rw [firstIdx_cons_ne xs hane, firstIdx_cons_ne xs hbne]
          exact Nat.succ_lt_succ hr

theorem mem_dedupFirst {α : Type} [DecidableEq α] (a : α) (l : List α) :
    a ∈ dedupFirst l ↔ a ∈ l := by
  rw [dedupFirst, mem_dedupAux]
  simp

theorem nodup_dedupFirst {α : Type} [DecidableEq α] (l : List α) :
    (dedupFirst l).Nodup := nodup_dedupAux l []

theorem pairwise_firstIdx_dedupFirst {α : Type} [DecidableEq α] (l : List α) :
    List.Pairwise (fun a b => firstIdx a l < firstIdx b l) (dedupFirst l) :=
  pairwise_firstIdx_dedupAux l []

/-- Decidable equality on results (not derived in this toolchain's core). -/
def exceptDecEq {ε α : Type} [DecidableEq ε] [DecidableEq α] :
    (a b : Except ε α) → Decidable (a = b)
  | Except.ok a, Except.ok b =>
      if h : a = b then isTrue (by rw [h]) else isFalse (fun hh => h (by cases hh; rfl))
  | Except.ok _, Except.error _ => isFalse (fun h => Except.noConfusion h)
  | Except.error _, Except.ok _ => isFalse (fun h => Except.noConfusion h)
  | Except.error e, Except.error f =>
      if h : e = f then isTrue (by rw [h]) else isFalse (fun hh => h (by cases hh; rfl))

instance {ε α : Type} [DecidableEq ε] [DecidableEq α] : DecidableEq (Except ε α) := exceptDecEq

/-! ## Step decomposition lemmas -/

theorem respJson_of_body_some {r : HResp} {j : Json} (h : r.body = some j) :
    respJson r = (Except.ok j, []) := by
  rw [respJson, h]; rfl

theorem respJson_of_body_none {r : HResp} (h : r.body = none) :
    respJson r = (Except.error Err.parseError, []) := by
  rw [respJson, h]; rfl

theorem raiseForStatus_eq_ok {r : HResp} {u : Unit} {tr : List Event}
    (h : raiseForStatus r = (Except.ok u, tr)) :
    tr = [] ∧ ¬(400 ≤ r.status ∧ r.status < 600) := by
  by_cases hc : 400 ≤ r.status ∧ r.status < 600
  · rw [raiseForStatus_fail hc] at h
    injection h with h1 _
    exact Except.noConfusion h1
  · rw [raiseForStatus_ok hc] at h
    injection h with _ h2
    exact ⟨h2.symm, hc⟩

theorem respJson_eq_ok {r : HResp} {j : Json} {tr : List Event}
    (h : respJson r = (Except.ok j, tr)) :
    r.body = some j ∧ tr = [] := by
  rcases hb : r.body with _ | j'
  · rw [respJson_of_body_none hb] at h
    injection h with h1 _
    exact Except.noConfusion h1
  · rw [respJson_of_body_some hb] at h
    injection h with h1 h2
    injection h1 with h1
    exact ⟨congrArg some h1, h2.symm⟩

theorem liftE_eq_ok {α : Type} {x : Except Err α} {a : α} {tr : List Event}
    (h : liftE x = (Except.ok a, tr)) :
    x = Except.ok a ∧ tr = [] := by
  cases x with
  | ok b =>
      rw [liftE_ok] at h
      injection h with h1 h2
      exact ⟨h1, h2.symm⟩
  | error e =>
      rw [liftE_err] at h
      injection h with h1 _
      exact Except.noConfusion h1

theorem emit_eq_ok {e : Event} {u : Unit} {tr : List Event}
    (h : emit e = (Except.ok u, tr)) : tr = [e] := by
  rw [emit_def] at h
  injection h with _ h2
  exact h2.symm

@[simp] theorem raiseForStatus_trace (r : HResp) : (raiseForStatus r).2 = [] := by
  rw [raiseForStatus]; split <;> rfl

@[simp] theorem respJson_trace (r : HResp) : (respJson r).2 = [] := by
  rw [respJson]; split <;> rfl

@[simp] theorem liftE_trace {α : Type} (x : Except Err α) : (liftE x).2 = [] := by
  cases x <;> rfl

/-! ## Lemmas about the idempotency checker -/

/-- A successful run of the checker made exactly the two calls, and its
result is the truthiness of the "result" field of the measurement-search
response. -/
theorem check_ok_decomp {w : World} {b : Bool} {tr : List Event}
    (h : check_run_yesterday w = (Except.ok b, tr)) :
    ∃ sids j2 res, tr = [Event.subjectsCall, Event.measurementsCall sids] ∧
      (w.measurementsResp sids).body = some j2 ∧
      dictGet j2 "result" Json.null = Except.ok res ∧ b = pyTruthy res := by
  rw [check_run_yesterday] at h
  simp only [M.bind_def] at h
  rcases bindM_eq_ok h with ⟨u1, t1, r1, he, h, htr⟩
  have ht1 := emit_eq_ok he
  rcases bindM_eq_ok h with ⟨u2, t2, r2, hr, h, htr2⟩
  obtain ⟨ht2, hst1⟩ := raiseForStatus_eq_ok hr
  rcases bindM_eq_ok h with ⟨j, t3, r3, hj, h, htr3⟩
  obtain ⟨hbody, ht3⟩ := respJson_eq_ok hj
  rcases bindM_eq_ok h with ⟨subjects, t4, r4, hsub, h, htr4⟩
  obtain ⟨hget, ht4⟩ := liftE_eq_ok hsub
  rcases bindM_eq_ok h with ⟨selems, t5, r5, hit, h, htr5⟩
  obtain ⟨hiter, ht5⟩ := liftE_eq_ok hit
  rcases bindM_eq_ok h with ⟨sids, t6, r6, hex, h, htr6⟩
  obtain ⟨hext, ht6⟩ := liftE_eq_ok hex
  rcases bindM_eq_ok h with ⟨u7, t7, r7, hem, h, htr7⟩
  have ht7 := emit_eq_ok hem
  rcases bindM_eq_ok h with ⟨u8, t8, r8, hr2, h, htr8⟩
  obtain ⟨ht8, hst2⟩ := raiseForStatus_eq_ok hr2
  rcases bindM_eq_ok h with ⟨j2, t9, r9, hj2, h, htr9⟩
  obtain ⟨hbody2, ht9⟩ := respJson_eq_ok hj2
  rcases bindM_eq_ok h with ⟨res, t10, r10, hres, h, htr10⟩
  obtain ⟨hget2, ht10⟩ := liftE_eq_ok hres
  rw [M.pure_def] at h
  injection h with hb hr10
  injection hb with hb
  refine ⟨sids, j2, res, ?_, hbody2, hget2, hb.symm⟩
  subst htr htr2 htr3 htr4 htr5 htr6 htr7 htr8 htr9 htr10
  subst ht1 ht2 ht3 ht4 ht5 ht6 ht7 ht8 ht9 ht10
  simp [hr10.symm]

/-- The checker only ever emits its own two calls. -/
theorem check_trace_events (w : World) :
    ∀ ev ∈ (check_run_yesterday w).2, ev.isCheckEvent = true := by
  intro ev hev
  rw [check_run_yesterday] at hev
  simp only [M.bind_def] at hev
  rcases bindM_trace_sub hev with h | ⟨_, _, hev⟩
  · simp [emit] at h
    subst h; rfl
  rcases bindM_trace_sub hev with h | ⟨_, _, hev⟩
  · rw [raiseForStatus_trace] at h
    exact absurd h (List.not_mem_nil ev)
  rcases bindM_trace_sub hev with h | ⟨_, _, hev⟩
  · rw [respJson_trace] at h
    exact absurd h (List.not_mem_nil ev)
  rcases bindM_trace_sub hev with h | ⟨_, _, hev⟩
  · rw [liftE_trace] at h
    exact absurd h (List.not_mem_nil ev)
  rcases bindM_trace_sub hev with h | ⟨_, _, hev⟩
  · rw [liftE_trace] at h
    exact absurd h (List.not_mem_nil ev)
  rcases bindM_trace_sub hev with h | ⟨_, _, hev⟩
  · rw [liftE_trace] at h
    exact absurd h (List.not_mem_nil ev)
  rcases bindM_trace_sub hev with h | ⟨_, _, hev⟩
  · simp [emit] at h
    subst h; rfl
  rcases bindM_trace_sub hev with h | ⟨_, _, hev⟩
  · rw [raiseForStatus_trace] at h
    exact absurd h (List.not_mem_nil ev)
  rcases bindM_trace_sub hev with h | ⟨_, _, hev⟩
  · rw [respJson_trace] at h
    exact absurd h (List.not_mem_nil ev)
  rcases bindM_trace_sub hev with h | ⟨_, _, hev⟩
  · rw [liftE_trace] at h
    exact absurd h (List.not_mem_nil ev)
  simp [pureM] at hev

/-! ## Lemmas about the authenticator and the fetch pipeline -/

/-- A successful authentication made exactly one call. -/
theorem get_access_token_eq_ok {w : World} {tok : Json} {tr : List Event}
    (h : get_access_token w = (Except.ok tok, tr)) : tr = [Event.authCall] := by
  rw [get_access_token] at h
  simp only [M.bind_def] at h
  rcases bindM_eq_ok h with ⟨u1, t1, r1, he, h, htr⟩
  have ht1 := emit_eq_ok he
  rcases bindM_eq_ok h with ⟨u2, t2, r2, hr, h, htr2⟩
  obtain ⟨ht2, _⟩ := raiseForStatus_eq_ok hr
  rcases bindM_eq_ok h with ⟨j, t3, r3, hj, h, htr3⟩
  obtain ⟨_, ht3⟩ := respJson_eq_ok hj
  rcases bindM_eq_ok h with ⟨token, t4, r4, hg, h, htr4⟩
  obtain ⟨_, ht4⟩ := liftE_eq_ok hg
  by_cases hpt : pyTruthy token = true
  · rw [if_pos hpt, M.pure_def] at h
    injection h with _ hr4
    subst htr htr2 htr3 htr4
    subst ht1 ht2 ht3 ht4
    simp [hr4.symm]
  · rw [if_neg hpt, throwM_def] at h
    injection h with h1 _
    exact Except.noConfusion h1

/-- When the meter-list call goes through and the body has the expected
shape, the enumerator returns the deduplicated ids after exactly one
call. -/
theorem enumerate_meters_of_shape {w : World} {token j : Json} {raw : List Json}
    (hs : ¬(400 ≤ w.metersResp.status ∧ w.metersResp.status < 600))
    (hb : w.metersResp.body = some j) (hx : extractMeterIds j = some raw) :
    enumerate_meters w token = (Except.ok (dedupFirst raw), [Event.metersCall token]) := by
  rw [enumerate_meters]
  simp only [M.bind_def, emit_def, bindM_ok, raiseForStatus_ok hs,
    respJson_of_body_some hb, hx]
  simp

/-- When the meter-list call goes through but the body fails the shape
check, the enumerator raises after exactly one call. -/
theorem enumerate_meters_badshape {w : World} {token : Json}
    (hs : ¬(400 ≤ w.metersResp.status ∧ w.metersResp.status < 600))
    (hbad : metersShape w.metersResp.body = false) :
    ∃ e, enumerate_meters w token = (Except.error e, [Event.metersCall token]) := by
  rw [enumerate_meters]
  simp only [M.bind_def, emit_def, bindM_ok, raiseForStatus_ok hs]
  rcases hb : w.metersResp.body with _ | j
  · refine ⟨Err.parseError, ?_⟩
    simp [respJson_of_body_none hb]
  · simp only [metersShape.eq_def, hb] at hbad
    rcases hx : extractMeterIds j with _ | raw
    · refine ⟨Err.valueError "Unexpected meters data format", ?_⟩
      simp [respJson_of_body_some hb, hx]
    · rw [hx] at hbad
      simp at hbad
/-- A successful enumeration means the call went through, the body had the
expected shape, and the result is the deduplicated raw id list. -/
theorem enumerate_meters_eq_ok {w : World} {token : Json} {ids : List Json} {tr : List Event}
    (h : enumerate_meters w token = (Except.ok ids, tr)) :
    ∃ j raw, w.metersResp.body = some j ∧ extractMeterIds j = some raw ∧
      ids = dedupFirst raw ∧ tr = [Event.metersCall token] := by
  rw [enumerate_meters] at h
  simp only [M.bind_def] at h
  rcases bindM_eq_ok h with ⟨u1, t1, r1, he, h, htr⟩
  have ht1 := emit_eq_ok he
  rcases bindM_eq_ok h with ⟨u2, t2, r2, hr, h, htr2⟩
  obtain ⟨ht2, _⟩ := raiseForStatus_eq_ok hr
  rcases bindM_eq_ok h with ⟨j, t3, r3, hj, h, htr3⟩
  obtain ⟨hbody, ht3⟩ := respJson_eq_ok hj
  rcases hx : extractMeterIds j with _ | raw
  · rw [hx] at h
    have h' : ((Except.error (Err.valueError "Unexpected meters data format") : Except Err (List Json)), ([] : List Event)) = (Except.ok ids, r3) := h
    injection h' with h1 _
    exact Except.noConfusion h1
  · rw [hx] at h
    have h' : ((Except.ok (dedupFirst raw) : Except Err (List Json)), ([] : List Event)) = (Except.ok ids, r3) := h
    injection h' with h1 hr3
    injection h1 with h1
    refine ⟨j, raw, hbody, hx, h1.symm, ?_⟩
    subst htr htr2 htr3
    subst ht1 ht2 ht3
    simp [hr3.symm]

/-- The enumerator's call trace is one meter-list call, whatever the
outcome. -/
theorem enumerate_meters_trace (w : World) (token : Json) :
    (enumerate_meters w token).2 = [Event.metersCall token] := by
  rw [enumerate_meters]
  simp only [M.bind_def, emit_def, bindM_ok, List.nil_append]
  rw [raiseForStatus]
  split
  · rfl
  · simp only [pureM_def, bindM_ok, List.nil_append]
    rw [respJson]
    split
    · simp only [pureM_def, bindM_ok, List.nil_append]
      split
      · simp
      · simp
    · rfl

/-- All per-meter fetching succeeds: one call per id, in input order, and
one parsed payload per id, in the same order. -/
theorem fetchMeterData_all_ok (w : World) (token : Json) (d : Int) :
    ∀ ids : List Json, (∀ mid ∈ ids, ¬ dataFails w d mid) →
      fetchMeterData w token d ids =
        (Except.ok (ids.map (fun mid => ((w.dataResp d mid).body).getD Json.null)),
         ids.map (fun mid => Event.dataCall token mid d)) := by
  intro ids
  induction ids with
  | nil => intro _; rfl
  | cons mid rest ih =>
      intro hok
      have hmid := hok mid (List.mem_cons_self mid rest)
      rw [dataFails] at hmid
      have hst : ¬(400 ≤ (w.dataResp d mid).status ∧ (w.dataResp d mid).status < 600) :=
        fun hc => hmid (Or.inl hc)
      have hbody : (w.dataResp d mid).body ≠ none := fun hc => hmid (Or.inr hc)
      rcases hb : (w.dataResp d mid).body with _ | j
      · exact absurd hb hbody
      · have hrest := ih (fun m hm => hok m (List.mem_cons_of_mem mid hm))
        rw [fetchMeterData]
        simp only [M.bind_def, emit_def, bindM_ok, raiseForStatus_ok hst,
          respJson_of_body_some hb, hrest, List.map_cons, M.pure_def]
        simp [hb]

/-- If any requested meter's fetch fails, the whole fetch errors. -/
theorem fetchMeterData_fail (w : World) (token : Json) (d : Int) :
    ∀ ids : List Json, (∃ mid ∈ ids, dataFails w d mid) →
      ∃ e tr, fetchMeterData w token d ids = (Except.error e, tr) := by
  intro ids
  induction ids with
  | nil =>
      rintro ⟨mid, hmem, _⟩
      exact absurd hmem (List.not_mem_nil mid)
  | cons mid rest ih =>
      rintro ⟨m, hmem, hfail⟩
      by_cases hst : 400 ≤ (w.dataResp d mid).status ∧ (w.dataResp d mid).status < 600
      · refine ⟨Err.httpError (w.dataResp d mid).status, [Event.dataCall token mid d], ?_⟩
        rw [fetchMeterData]
        simp [raiseForStatus_fail hst]
      · by_cases hbody : (w.dataResp d mid).body = none
        · refine ⟨Err.parseError, [Event.dataCall token mid d], ?_⟩
          rw [fetchMeterData]
          simp [raiseForStatus_ok hst, respJson_of_body_none hbody]
        · have hmidok : ¬ dataFails w d mid := by
            rw [dataFails]
            exact fun hc => hc.elim hst hbody
          have hmrest : m ∈ rest := by
            rcases List.mem_cons.mp hmem with hm | hm
            · exact absurd (hm ▸ hfail) hmidok
            · exact hm
          rcases ih ⟨m, hmrest, hfail⟩ with ⟨e, tr, hIH⟩
          rcases hb : (w.dataResp d mid).body with _ | j
          · exact absurd hb hbody
          · refine ⟨e, Event.dataCall token mid d :: tr, ?_⟩
            rw [fetchMeterData]
            simp [raiseForStatus_ok hst, respJson_of_body_some hb, hIH]

/-- Every event the per-meter fetch loop emits is a data call with its own
token and date. -/
theorem fetchMeterData_events (w : World) (token : Json) (d : Int) :
    ∀ (ids : List Json), ∀ ev ∈ (fetchMeterData w token d ids).2,
      ∃ mid, ev = Event.dataCall token mid d := by
  intro ids
  induction ids with
  | nil =>
      intro ev hev
      exact absurd hev (List.not_mem_nil ev)
  | cons mid rest ih =>
      intro ev hev
      rw [fetchMeterData] at hev
      simp only [M.bind_def] at hev
      rcases bindM_trace_sub hev with h | ⟨_, _, hev⟩
      · simp [emit] at h
        exact ⟨mid, h⟩
      rcases bindM_trace_sub hev with h | ⟨_, _, hev⟩
      · rw [raiseForStatus_trace] at h
        exact absurd h (List.not_mem_nil ev)
      rcases bindM_trace_sub hev with h | ⟨_, _, hev⟩
      · rw [respJson_trace] at h
        exact absurd h (List.not_mem_nil ev)
      rcases bindM_trace_sub hev with h | ⟨_, _, hev⟩
      · exact ih ev h
      simp [pureM] at hev

/-- The forwarder's call trace is one submission call, whatever the
outcome. -/
theorem forward_trace (w : World) (data : List Json) :
    (forward_to_blockbax w data).2 = [Event.forwardCall (Json.arr data)] := by
  rw [forward_to_blockbax]
  simp only [M.bind_def, emit_def, bindM_ok]
  simp [raiseForStatus_trace]

/-- Every event of a fetch run is the meter-list call or a data call, in
both cases carrying the caller's token. -/
theorem fetch_events (w : World) (token : Json) (dopt : Option Int) :
    ∀ ev ∈ (fetch_power_usage w token dopt).2,
      ev = Event.metersCall token ∨ ∃ mid dd, ev = Event.dataCall token mid dd := by
  intro ev hev
  rw [fetch_power_usage] at hev
  simp only [M.bind_def] at hev
  rcases bindM_trace_sub hev with h | ⟨ids, _, h⟩
  · rw [enumerate_meters_trace] at h
    simp at h
    exact Or.inl h
  · rcases fetchMeterData_events w token _ ids ev h with ⟨mid, hmid⟩
    exact Or.inr ⟨mid, _, hmid⟩

/-- No fetch event is a forward call. -/
theorem fetch_no_forward (w : World) (token : Json) (dopt : Option Int) :
    ∀ ev ∈ (fetch_power_usage w token dopt).2, ev.isForwardCall = false := by
  intro ev hev
  rcases fetch_events w token dopt ev hev with h | ⟨mid, dd, h⟩ <;> subst h <;> rfl

/-- A successful cycle splits into a successful fetch followed by the one
forward call of its payload. -/
theorem dayCycle_ok_decomp {w : World} {token : Json} {dopt : Option Int} {tr : List Event}
    (h : dayCycle w token dopt = (Except.ok (), tr)) :
    ∃ data trf, fetch_power_usage w token dopt = (Except.ok data, trf) ∧
      tr = trf ++ [Event.forwardCall (Json.arr data)] := by
  rw [dayCycle] at h
  simp only [M.bind_def] at h
  rcases bindM_eq_ok h with ⟨data, trf, trw, hf, hw, htr⟩
  refine ⟨data, trf, hf, ?_⟩
  have h2 : trw = [Event.forwardCall (Json.arr data)] := by
    rw [← forward_trace w data, hw]
  rw [htr, h2]

/-- A successful cycle makes exactly one forward call. -/
theorem dayCycle_ok_one_forward {w : World} {token : Json} {dopt : Option Int} {tr : List Event}
    (h : dayCycle w token dopt = (Except.ok (), tr)) :
    tr.countP Event.isForwardCall = 1 := by
  rcases dayCycle_ok_decomp h with ⟨data, trf, hf, htr⟩
  subst htr
  rw [List.countP_append]
  have h0 : trf.countP Event.isForwardCall = 0 := by
    rw [List.countP_eq_zero]
    intro ev hev
    have hin : ev ∈ (fetch_power_usage w token dopt).2 := by
      rw [hf]
      exact hev
    have := fetch_no_forward w token dopt ev hin
    simp [this]
  rw [h0]
  rfl

/-- Every event of a cycle is a provider call carrying the cycle's token
or the forward call. -/
theorem dayCycle_events (w : World) (token : Json) (dopt : Option Int) :
    ∀ ev ∈ (dayCycle w token dopt).2,
      (ev.tokenOf = none ∨ ev.tokenOf = some token) ∧ ev.isAuthCall = false ∧
        ev.isCheckEvent = false := by
  intro ev hev
  rw [dayCycle] at hev
  simp only [M.bind_def] at hev
  rcases bindM_trace_sub hev with h | ⟨data, _, h⟩
  · rcases fetch_events w token dopt ev h with h' | ⟨mid, dd, h'⟩ <;> subst h' <;>
      simp [Event.tokenOf, Event.isAuthCall, Event.isCheckEvent]
  · rw [forward_trace] at h
    simp at h
    subst h
    simp [Event.tokenOf, Event.isAuthCall, Event.isCheckEvent]

/-- When every day's cycle succeeds, the backfill loop succeeds and its
trace is the concatenation of the per-day cycle traces, in order. -/
theorem runBackfill_all_ok (w : World) (token : Json) :
    ∀ ks : List Int,
      (∀ k ∈ ks, (dayCycle w token (some (w.today - k))).1 = Except.ok ()) →
      runBackfill w token ks =
        (Except.ok (), (ks.map (fun k => (dayCycle w token (some (w.today - k))).2)).flatten) := by
  intro ks
  induction ks with
  | nil => intro _; rfl
  | cons k rest ih =>
      intro hok
      have hk := hok k (List.mem_cons_self k rest)
      have hrest := ih (fun m hm => hok m (List.mem_cons_of_mem k hm))
      rw [runBackfill]
      simp only [M.bind_def]
      rcases hd : dayCycle w token (some (w.today - k)) with ⟨r, trk⟩
      rw [hd] at hk
      simp at hk
      subst hk
      simp only [bindM_ok, hrest, List.map_cons, List.flatten]
      simp [hd]

/-! ## Lemmas about the orchestrator -/

/-- When the idempotency check is true, the body stops right after it. -/
theorem mainBody_skip {w : World} {bd : Int} {ctr : List Event}
    (hc : check_run_yesterday w = (Except.ok true, ctr)) :
    mainBody w bd = (Except.ok (), ctr) := by
  rw [mainBody]
  simp only [M.bind_def, hc, bindM_ok]
  simp

/-- When the check is false and authentication succeeds, a positive
backfill count runs the backfill loop after the check and auth calls. -/
theorem mainBody_backfill {w : World} {bd : Int} {tok : Json} {ctr atr : List Event}
    (hbd : 0 < bd)
    (hc : check_run_yesterday w = (Except.ok false, ctr))
    (ht : get_access_token w = (Except.ok tok, atr)) :
    mainBody w bd = ((runBackfill w tok (rangeDown bd)).1,
      ctr ++ atr ++ (runBackfill w tok (rangeDown bd)).2) := by
  rw [mainBody]
  simp only [M.bind_def, hc, bindM_ok]
  simp only [Bool.false_eq_true, if_false, M.bind_def, ht, bindM_ok]
  rw [if_pos hbd]
  simp

/-- When the check is false and authentication succeeds, a non-positive
backfill count runs the single default cycle after the check and auth
calls. -/
theorem mainBody_default {w : World} {bd : Int} {tok : Json} {ctr atr : List Event}
    (hbd : ¬ 0 < bd)
    (hc : check_run_yesterday w = (Except.ok false, ctr))
    (ht : get_access_token w = (Except.ok tok, atr)) :
    mainBody w bd = ((dayCycle w tok none).1,
      ctr ++ atr ++ (dayCycle w tok none).2) := by
  rw [mainBody]
  simp only [M.bind_def, hc, bindM_ok]
  simp only [Bool.false_eq_true, if_false, M.bind_def, ht, bindM_ok]
  rw [if_neg hbd]
  simp

/-- The top level always reports success. -/
theorem mainProg_always_ok (w : World) (bd : Int) : (mainProg w bd).1 = Except.ok () := by
  rcases h : mainBody w bd with ⟨r, tr⟩
  cases r <;> simp [mainProg, h]

/-- The top level turns a successful body into a successful run with the
same trace. -/
theorem mainProg_of_ok {w : World} {bd : Int} {tr : List Event}
    (h : mainBody w bd = (Except.ok (), tr)) :
    mainProg w bd = (Except.ok (), tr) := by
  simp [mainProg, h]

/-- The top level turns a raising body into a successful run that appends
one error-log line. -/
theorem mainProg_of_err {w : World} {bd : Int} {e : Err} {tr : List Event}
    (h : mainBody w bd = (Except.error e, tr)) :
    mainProg w bd = (Except.ok (), tr ++ [Event.errorLog e]) := by
  simp [mainProg, h]

/-! ## The claims -/

/-- Claim C2: for every pair of responses to the idempotency checker's two
calls, the checker returns true iff the measurement-search call's result
list is non-empty; and an empty subject list still produces a non-erroring
measurement-search call carrying an empty subject-id list. -/
theorem claim_C2 :
    (∀ (w : World) (b : Bool) (tr : List Event) (ids l : List Json) (kvs2 : List (String × Json)),
      check_run_yesterday w = (Except.ok b, tr) →
      Event.measurementsCall ids ∈ tr →
      (w.measurementsResp ids).body = some (Json.obj kvs2) →
      kvs2.lookup "result" = some (Json.arr l) →
      (b = true ↔ l ≠ [])) ∧
    (∀ (w : World) (j : Json) (kvs2 : List (String × Json)),
      ¬(400 ≤ w.subjectsResp.status ∧ w.subjectsResp.status < 600) →
      w.subjectsResp.body = some j →
      dictGet j "result" (Json.arr []) = Except.ok (Json.arr []) →
      ¬(400 ≤ (w.measurementsResp []).status ∧ (w.measurementsResp []).status < 600) →
      (w.measurementsResp []).body = some (Json.obj kvs2) →
      check_run_yesterday w = (Except.ok (pyTruthy ((kvs2.lookup "result").getD Json.null)),
        [Event.subjectsCall, Event.measurementsCall []])) := by
  constructor
  · intro w b tr ids l kvs2 h hmem hbody2 hlook
    rcases check_ok_decomp h with ⟨sids, j2, res, htr, hbody, hget, hb⟩
    subst htr
    have hids : ids = sids := by
      rcases List.mem_cons.mp hmem with hm | hm
      · exact absurd hm (by simp)
      · rcases List.mem_cons.mp hm with hm' | hm'
        · injection hm' with h1
        · exact absurd hm' (List.not_mem_nil _)
    subst hids
    have hj2 : j2 = Json.obj kvs2 := by
      have := hbody.symm.trans hbody2
      injection this
    subst hj2
    rw [dictGet] at hget
    injection hget with hget
    rw [hlook] at hget
    rw [hb, ← hget]
    cases l with
    | nil => simp [pyTruthy, Option.getD]
    | cons x xs => simp [pyTruthy, Option.getD]
  · intro w j kvs2 h1 h2 h3 h4 h5
    rw [check_run_yesterday]
    simp only [M.bind_def, emit_def, bindM_ok, raiseForStatus_ok h1,
      respJson_of_body_some h2, h3, liftE_ok, pureM_def, List.nil_append,
      List.append_nil]
    have hiter : pyIter (Json.arr []) = Except.ok [] := rfl
    have hext : extractSubjectIds [] = Except.ok [] := rfl
    simp only [hiter, hext, liftE_ok, bindM_ok, emit_def,
      raiseForStatus_ok h4, respJson_of_body_some h5, List.nil_append]
    have hget : dictGet (Json.obj kvs2) "result" Json.null =
        Except.ok ((kvs2.lookup "result").getD Json.null) := rfl
    simp only [hget, liftE_ok, bindM_ok, M.pure_def]
    simp

/-- Claim C7: whenever the idempotency check returns true — for any
backfill day-count — the run makes no authentication, meter-list, data, or
forward call and ends normally. -/
theorem claim_C7 :
    ∀ (w : World) (bd : Int) (ctr : List Event),
      check_run_yesterday w = (Except.ok true, ctr) →
      mainProg w bd = (Except.ok (), ctr) ∧
        ∀ ev ∈ ctr, ev.isAuthCall = false ∧ ev.isMetersCall = false ∧
          ev.isDataCall = false ∧ ev.isForwardCall = false := by
  intro w bd ctr hc
  refine ⟨mainProg_of_ok (mainBody_skip hc), ?_⟩
  intro ev hev
  have hcheck : ev.isCheckEvent = true := by
    apply check_trace_events w ev
    rw [hc]
    exact hev
  cases ev <;> simp [Event.isCheckEvent] at hcheck <;>
    simp [Event.isAuthCall, Event.isMetersCall, Event.isDataCall, Event.isForwardCall]

/-- Claim C8: every error raised anywhere in a run is caught by the
top-level handler, which logs it and returns normally; the process outcome
is always success. -/
theorem claim_C8 :
    ∀ (w : World) (bd : Int), (mainProg w bd).1 = Except.ok () ∧
      ∀ (e : Err) (tr : List Event), mainBody w bd = (Except.error e, tr) →
        mainProg w bd = (Except.ok (), tr ++ [Event.errorLog e]) := by
  intro w bd
  exact ⟨mainProg_always_ok w bd, fun e tr h => mainProg_of_err h⟩

/-- Witness for C2 at concrete worlds: a non-empty measurement result makes
the checker true, and an empty subject list still yields a successful
measurement-search call with an empty id list. -/
theorem claim_C2_witness :
    ((true = true) ↔ ([Json.num 1] ≠ ([] : List Json))) ∧
    check_run_yesterday WES =
      (Except.ok (pyTruthy ((([("result", Json.arr [Json.num 1])] :
          List (String × Json)).lookup "result").getD Json.null)),
       [Event.subjectsCall, Event.measurementsCall []]) :=
  ⟨claim_C2.1 W2 true [Event.subjectsCall, Event.measurementsCall [Json.str "s1"]]
      [Json.str "s1"] [Json.num 1] [("result", Json.arr [Json.num 1])] rfl (by simp) rfl rfl,
   claim_C2.2 WES (Json.obj [("result", Json.arr [])]) [("result", Json.arr [Json.num 1])]
      (by decide) rfl rfl (by decide) rfl⟩

/-- Witness for C7: with a prior measurement and a backfill request of 2
days, the run is still skipped after the two check calls. -/
theorem claim_C7_witness :
    mainProg W2 2 = (Except.ok (), [Event.subjectsCall, Event.measurementsCall [Json.str "s1"]]) ∧
      ∀ ev ∈ [Event.subjectsCall, Event.measurementsCall [Json.str "s1"]],
        ev.isAuthCall = false ∧ ev.isMetersCall = false ∧
          ev.isDataCall = false ∧ ev.isForwardCall = false :=
  claim_C7 W2 2 [Event.subjectsCall, Event.measurementsCall [Json.str "s1"]] rfl

/-- Witness for C8: a 500 on the first call is caught, logged, and the
process outcome is still success. -/
theorem claim_C8_witness :
    (mainProg WFail 0).1 = Except.ok () ∧
      mainProg WFail 0 = (Except.ok (),
        [Event.subjectsCall, Event.errorLog (Err.httpError 500)]) :=
  ⟨(claim_C8 WFail 0).1,
   (claim_C8 WFail 0).2 (Err.httpError 500) [Event.subjectsCall] rfl⟩

/-- Claim C10: a non-positive backfill-days value behaves exactly as the
default: the backfill branch is skipped, one cycle runs, and the default
date is yesterday. -/
theorem claim_C10 :
    (∀ (w : World) (bd : Int), bd ≤ 0 → mainProg w bd = mainProg w 0) ∧
    (∀ (w : World) (token : Json),
      fetch_power_usage w token none = fetch_power_usage w token (some (w.today - 1))) ∧
    (∀ (w : World) (bd : Int) (tok : Json) (ctr atr : List Event), bd ≤ 0 →
      check_run_yesterday w = (Except.ok false, ctr) →
      get_access_token w = (Except.ok tok, atr) →
      mainBody w bd = ((dayCycle w tok none).1, ctr ++ atr ++ (dayCycle w tok none).2)) := by
  refine ⟨?_, ?_, ?_⟩
  · intro w bd hbd
    have hb : mainBody w bd = mainBody w 0 := by
      rw [mainBody, mainBody]
      simp only [M.bind_def]
      congr 1
      funext ran
      cases ran
      · simp only [Bool.false_eq_true, if_false]
        congr 1
        funext token
        rw [if_neg (by omega), if_neg (by omega)]
      · rfl
    rw [mainProg, mainProg, hb]
  · intro w token
    rfl
  · intro w bd tok ctr atr hbd hc ht
    exact mainBody_default (by omega) hc ht

/-- Witness for C10 at the all-success world with backfill-days -3. -/
theorem claim_C10_witness :
    mainProg W1 (-3) = mainProg W1 0 ∧
    fetch_power_usage W1 (Json.str "T1") none
      = fetch_power_usage W1 (Json.str "T1") (some (W1.today - 1)) ∧
    mainBody W1 0 = ((dayCycle W1 (Json.str "T1") none).1,
      [Event.subjectsCall, Event.measurementsCall [Json.str "s1"]] ++ [Event.authCall] ++
        (dayCycle W1 (Json.str "T1") none).2) :=
  ⟨claim_C10.1 W1 (-3) (by decide),
   claim_C10.2.1 W1 (Json.str "T1"),
   claim_C10.2.2 W1 0 (Json.str "T1")
     [Event.subjectsCall, Event.measurementsCall [Json.str "s1"]] [Event.authCall]
     (by decide) rfl rfl⟩

/-- Claim C3: a positive backfill day-count D performs exactly D
fetch/forward cycles, one per UTC day from today-D through today-1 in
ascending order, every provider call in the loop carrying the token
obtained by the single authentication before the loop. -/
theorem claim_C3 :
    ∀ (w : World) (D : Int) (tok : Json) (ctr atr : List Event),
      0 < D →
      check_run_yesterday w = (Except.ok false, ctr) →
      get_access_token w = (Except.ok tok, atr) →
      (∀ k ∈ rangeDown D, (dayCycle w tok (some (w.today - k))).1 = Except.ok ()) →
      mainBody w D = (Except.ok (), ctr ++ [Event.authCall] ++
          ((rangeDown D).map (fun k => (dayCycle w tok (some (w.today - k))).2)).flatten) ∧
        (rangeDown D).map (fun k => w.today - k)
            = (List.range D.toNat).map (fun i : Nat => w.today - D + (i : Int)) ∧
        ((rangeDown D).map (fun k => w.today - k)).length = D.toNat ∧
        List.Pairwise (fun a b => a < b) ((rangeDown D).map (fun k => w.today - k)) ∧
        (∀ ev ∈ ((rangeDown D).map (fun k => (dayCycle w tok (some (w.today - k))).2)).flatten,
            (ev.tokenOf = none ∨ ev.tokenOf = some tok) ∧ ev.isAuthCall = false) ∧
        (∀ k ∈ rangeDown D,
            ((dayCycle w tok (some (w.today - k))).2.countP Event.isForwardCall) = 1) := by
  intro w D tok ctr atr hD hc ht hcycles
  have hrun := runBackfill_all_ok w tok (rangeDown D) hcycles
  have hatr : atr = [Event.authCall] := get_access_token_eq_ok ht
  subst hatr
  have hdates : (rangeDown D).map (fun k => w.today - k)
      = (List.range D.toNat).map (fun i : Nat => w.today - D + (i : Int)) := by
    rw [rangeDown, List.map_map]
    have hfun : ((fun k => w.today - k) ∘ (fun i : Nat => D - (i : Int)))
        = (fun i : Nat => w.today - D + (i : Int)) := by
      funext i
      simp only [Function.comp]
      ring
    rw [hfun]
  refine ⟨?_, hdates, ?_, ?_, ?_, ?_⟩
  · rw [mainBody_backfill hD hc ht, hrun]
  · rw [hdates, List.length_map, List.length_range]
  · rw [hdates, List.pairwise_map]
    refine pairwiseOfMem (fun a b _ _ hr => ?_) (List.pairwise_lt_range D.toNat)
    omega
  · intro ev hev
    rw [List.mem_flatten] at hev
    rcases hev with ⟨s, hs, hev⟩
    rw [List.mem_map] at hs
    rcases hs with ⟨k, _, hk⟩
    subst hk
    have := dayCycle_events w tok (some (w.today - k)) ev hev
    exact ⟨this.1, this.2.1⟩
  · intro k hk
    rcases hd : dayCycle w tok (some (w.today - k)) with ⟨r, trk⟩
    have hr := hcycles k hk
    rw [hd] at hr
    simp at hr
    subst hr
    exact dayCycle_ok_one_forward hd

/-- Witness for C3 at the all-success world with a 2-day backfill. -/
theorem claim_C3_witness :
    mainBody W1 2 = (Except.ok (),
        [Event.subjectsCall, Event.measurementsCall [Json.str "s1"]] ++ [Event.authCall] ++
        ((rangeDown 2).map (fun k => (dayCycle W1 (Json.str "T1") (some (W1.today - k))).2)).flatten) ∧
      (rangeDown 2).map (fun k => W1.today - k)
          = (List.range (2 : Int).toNat).map (fun i : Nat => W1.today - 2 + (i : Int)) ∧
      ((rangeDown 2).map (fun k => W1.today - k)).length = (2 : Int).toNat ∧
      List.Pairwise (fun a b => a < b) ((rangeDown 2).map (fun k => W1.today - k)) ∧
      (∀ ev ∈ ((rangeDown 2).map (fun k => (dayCycle W1 (Json.str "T1") (some (W1.today - k))).2)).flatten,
          (ev.tokenOf = none ∨ ev.tokenOf = some (Json.str "T1")) ∧ ev.isAuthCall = false) ∧
      (∀ k ∈ rangeDown 2,
          ((dayCycle W1 (Json.str "T1") (some (W1.today - k))).2.countP Event.isForwardCall) = 1) :=
  claim_C3 W1 2 (Json.str "T1")
    [Event.subjectsCall, Event.measurementsCall [Json.str "s1"]] [Event.authCall]
    (by decide) rfl rfl (by decide)

theorem metersShape_some (j : Json) : metersShape (some j) = (extractMeterIds j).isSome := rfl

theorem metersShape_none : metersShape none = false := rfl

/-- Claim C1 (amended): given that the meter-list call itself succeeds, the
enumerator accepts the response exactly when it parses as an object with a
"meters" list — the per-record identifier field is not part of the check —
and on any other shape it raises before a single per-meter data request is
made. -/
theorem claim_C1 :
    ∀ (w : World) (token : Json) (dopt : Option Int),
      ¬(400 ≤ w.metersResp.status ∧ w.metersResp.status < 600) →
      ((∃ ids tr, enumerate_meters w token = (Except.ok ids, tr)) ↔
        metersShape w.metersResp.body = true) ∧
      (metersShape w.metersResp.body = false →
        (∃ e, (fetch_power_usage w token dopt).1 = Except.error e) ∧
        ∀ ev ∈ (fetch_power_usage w token dopt).2, ev.isDataCall = false) := by
  intro w token dopt hs
  constructor
  · constructor
    · rintro ⟨ids, tr, h⟩
      rcases enumerate_meters_eq_ok h with ⟨j, raw, hb, hx, _, _⟩
      rw [hb, metersShape_some, hx]
      rfl
    · intro hshape
      rcases hb : w.metersResp.body with _ | j
      · rw [hb, metersShape_none] at hshape
        exact absurd hshape (by simp)
      · rw [hb, metersShape_some] at hshape
        rcases hx : extractMeterIds j with _ | raw
        · rw [hx] at hshape
          simp at hshape
        · exact ⟨dedupFirst raw, [Event.metersCall token],
            enumerate_meters_of_shape hs hb hx⟩
  · intro hbad
    obtain ⟨e, he⟩ := @enumerate_meters_badshape w token hs hbad
    constructor
    · refine ⟨e, ?_⟩
      rw [fetch_power_usage]
      simp only [M.bind_def, he, bindM_err]
    · intro ev hev
      rw [fetch_power_usage] at hev
      simp only [M.bind_def, he, bindM_err] at hev
      simp at hev
      subst hev
      rfl

/-- Counterexample to C1 as stated: a response whose single meter record
bears no identifier field is nevertheless accepted (the enumerator returns
successfully, with that record silently dropped). -/
theorem claim_C1_cex :
    meterIdOf (Json.obj [("x", Json.num 0)]) = none ∧
    enumerate_meters WC1 (Json.str "T1") =
      (Except.ok [], [Event.metersCall (Json.str "T1")]) :=
  ⟨rfl, rfl⟩

/-- Witness for C1 (amended) at a world whose meter-list body is a bare
number. -/
theorem claim_C1_witness :
    ((∃ ids tr, enumerate_meters WBad (Json.str "T1") = (Except.ok ids, tr)) ↔
      metersShape WBad.metersResp.body = true) ∧
    (metersShape WBad.metersResp.body = false →
      (∃ e, (fetch_power_usage WBad (Json.str "T1") none).1 = Except.error e) ∧
      ∀ ev ∈ (fetch_power_usage WBad (Json.str "T1") none).2, ev.isDataCall = false) :=
  claim_C1 WBad (Json.str "T1") none (by decide)

/-- Claim C9: when the top-level shape is right, list elements that are not
objects or lack an "id" key are silently dropped — the enumeration still
succeeds, and its output consists exactly of the ids of the well-formed
records. -/
theorem claim_C9 :
    ∀ (w : World) (token : Json) (kvs : List (String × Json)) (ms : List Json),
      ¬(400 ≤ w.metersResp.status ∧ w.metersResp.status < 600) →
      w.metersResp.body = some (Json.obj kvs) →
      kvs.lookup "meters" = some (Json.arr ms) →
      enumerate_meters w token =
        (Except.ok (dedupFirst (ms.filterMap meterIdOf)), [Event.metersCall token]) ∧
      (∀ a, a ∈ dedupFirst (ms.filterMap meterIdOf) ↔ ∃ m ∈ ms, meterIdOf m = some a) := by
  intro w token kvs ms hs hb hl
  have hx : extractMeterIds (Json.obj kvs) = some (ms.filterMap meterIdOf) := by
    simp [extractMeterIds, hl]
  refine ⟨enumerate_meters_of_shape hs hb hx, fun a => ?_⟩
  rw [mem_dedupFirst, List.mem_filterMap]

/-- Witness for C9 at a world whose meter list mixes records with junk. -/
theorem claim_C9_witness :
    enumerate_meters W9 (Json.str "T1") =
      (Except.ok (dedupFirst ([Json.obj [("id", Json.str "A")], Json.num 5,
          Json.obj [("x", Json.num 1)], Json.obj [("id", Json.str "A")],
          Json.obj [("id", Json.str "B")]].filterMap meterIdOf)),
        [Event.metersCall (Json.str "T1")]) ∧
    (∀ a, a ∈ dedupFirst ([Json.obj [("id", Json.str "A")], Json.num 5,
          Json.obj [("x", Json.num 1)], Json.obj [("id", Json.str "A")],
          Json.obj [("id", Json.str "B")]].filterMap meterIdOf) ↔
        ∃ m ∈ [Json.obj [("id", Json.str "A")], Json.num 5, Json.obj [("x", Json.num 1)],
          Json.obj [("id", Json.str "A")], Json.obj [("id", Json.str "B")]],
          meterIdOf m = some a) :=
  claim_C9 W9 (Json.str "T1")
    [("meters", Json.arr [Json.obj [("id", Json.str "A")], Json.num 5,
      Json.obj [("x", Json.num 1)], Json.obj [("id", Json.str "A")],
      Json.obj [("id", Json.str "B")]])]
    [Json.obj [("id", Json.str "A")], Json.num 5, Json.obj [("x", Json.num 1)],
      Json.obj [("id", Json.str "A")], Json.obj [("id", Json.str "B")]]
    (by decide) rfl rfl

/-- Claim C5: whatever the upstream meter list, the enumerator's output
lists each identifier at most once, contains exactly the identifiers of the
raw list, and orders them by first occurrence. -/
theorem claim_C5 :
    ∀ (w : World) (token : Json) (ids : List Json) (tr : List Event),
      enumerate_meters w token = (Except.ok ids, tr) →
      ∃ j raw, w.metersResp.body = some j ∧ extractMeterIds j = some raw ∧
        ids = dedupFirst raw ∧ ids.Nodup ∧ (∀ a, a ∈ ids ↔ a ∈ raw) ∧
        List.Pairwise (fun a b => firstIdx a raw < firstIdx b raw) ids := by
  intro w token ids tr h
  rcases enumerate_meters_eq_ok h with ⟨j, raw, hb, hx, hids, _⟩
  subst hids
  exact ⟨j, raw, hb, hx, rfl, nodup_dedupFirst raw,
    fun a => mem_dedupFirst a raw, pairwise_firstIdx_dedupFirst raw⟩

/-- Witness for C5 at the world whose meter list is A, A, B. -/
theorem claim_C5_witness :
    ∃ j raw, W1.metersResp.body = some j ∧ extractMeterIds j = some raw ∧
      [Json.str "A", Json.str "B"] = dedupFirst raw ∧
      ([Json.str "A", Json.str "B"] : List Json).Nodup ∧
      (∀ a, a ∈ ([Json.str "A", Json.str "B"] : List Json) ↔ a ∈ raw) ∧
      List.Pairwise (fun a b => firstIdx a raw < firstIdx b raw)
        ([Json.str "A", Json.str "B"] : List Json) :=
  claim_C5 W1 (Json.str "T1") [Json.str "A", Json.str "B"]
    [Event.metersCall (Json.str "T1")] rfl

/-- Claim C6: for distinct meter identifiers whose requests all succeed,
the fetcher makes exactly one data call per identifier, in input order, and
returns exactly one parsed payload per identifier, in the same order. -/
theorem claim_C6 :
    ∀ (w : World) (token : Json) (d : Int) (ids : List Json),
      ids.Nodup → (∀ mid ∈ ids, ¬ dataFails w d mid) →
      fetchMeterData w token d ids =
        (Except.ok (ids.map (fun mid => ((w.dataResp d mid).body).getD Json.null)),
         ids.map (fun mid => Event.dataCall token mid d)) := by
  intro w token d ids _ hok
  exact fetchMeterData_all_ok w token d ids hok

/-- Witness for C6 with the two meters of the all-success world. -/
theorem claim_C6_witness :
    fetchMeterData W1 (Json.str "T1") 99 [Json.str "A", Json.str "B"] =
      (Except.ok (([Json.str "A", Json.str "B"] : List Json).map
          (fun mid => ((W1.dataResp 99 mid).body).getD Json.null)),
       ([Json.str "A", Json.str "B"] : List Json).map
          (fun mid => Event.dataCall (Json.str "T1") mid 99)) :=
  claim_C6 W1 (Json.str "T1") 99 [Json.str "A", Json.str "B"] (by decide) (by decide)

/-- Claim C4: a failing per-meter request aborts the whole fetch with an
error (no partial result list is returned), and a fetch that errors makes
the day's cycle error with the same trace, which contains no forward
call. -/
theorem claim_C4 :
    (∀ (w : World) (token : Json) (d : Int) (ids : List Json),
      (∃ mid ∈ ids, dataFails w d mid) →
      ∃ e tr, fetchMeterData w token d ids = (Except.error e, tr)) ∧
    (∀ (w : World) (token : Json) (dopt : Option Int) (e : Err) (trf : List Event),
      fetch_power_usage w token dopt = (Except.error e, trf) →
      dayCycle w token dopt = (Except.error e, trf) ∧
      ∀ ev ∈ trf, ev.isForwardCall = false) := by
  constructor
  · exact fun w token d ids h => fetchMeterData_fail w token d ids h
  · intro w token dopt e trf hf
    constructor
    · rw [dayCycle]
      simp only [M.bind_def, hf, bindM_err]
    · intro ev hev
      apply fetch_no_forward w token dopt ev
      rw [hf]
      exact hev

/-- Witness for C4 at the world whose data endpoint always answers 500. -/
theorem claim_C4_witness :
    (∃ e tr, fetchMeterData WFF (Json.str "T1") 99 [Json.str "A"] = (Except.error e, tr)) ∧
    (dayCycle WFF (Json.str "T1") (some 99) = (Except.error (Err.httpError 500),
        [Event.metersCall (Json.str "T1"), Event.dataCall (Json.str "T1") (Json.str "A") 99]) ∧
      ∀ ev ∈ [Event.metersCall (Json.str "T1"), Event.dataCall (Json.str "T1") (Json.str "A") 99],
        ev.isForwardCall = false) :=
  ⟨claim_C4.1 WFF (Json.str "T1") 99 [Json.str "A"] ⟨Json.str "A", by simp, by decide⟩,
   claim_C4.2 WFF (Json.str "T1") (some 99) (Err.httpError 500)
     [Event.metersCall (Json.str "T1"), Event.dataCall (Json.str "T1") (Json.str "A") 99] rfl⟩
